import Mathlib

set_option maxRecDepth 100000
set_option maxHeartbeats 1000000

/-!
Verification development for the verkeersbesluiten download/ingestion pipeline
(`get_besluiten_for_date.py`, `api_config.py`, `api.py`).

The Python source is shallowly embedded: pure helpers become Lean functions,
the network is an explicit oracle (`HttpReq → Option Response` for the
orchestrator, an attempt-indexed oracle for the rate-limited fetcher), the
filesystem is an explicit list of written paths, and Python exceptions
surface as `Except` / a dedicated `raised` constructor.  XML handling
(`xml.etree.ElementTree`) is modelled by an executable parser for the
fragment of XML the code exercises: elements, attributes, character data,
character/entity references and namespace (`xmlns`) resolution; comments,
processing instructions past a leading declaration, DOCTYPE and CDATA are
not modelled (no claim depends on them).
-/

/-! ## Python-style string primitives (over `List Char`, structurally recursive) -/

/-- Whitespace characters stripped by Python's `str.strip()` (ASCII subset). -/
def pyWsChar (c : Char) : Bool :=
  c == ' ' || c == '\t' || c == '\n' || c == '\r' || c == '\x0b' || c == '\x0c'

/-- ASCII lower-casing of one character, as by `str.lower()` on ASCII input. -/
def lowerChar (c : Char) : Char :=
  if 65 ≤ c.toNat ∧ c.toNat ≤ 90 then Char.ofNat (c.toNat + 32) else c

/-- Models `str.lower()` (ASCII fragment; the configured keywords are ASCII). -/
def pyLower (s : String) : String :=
  String.mk (s.data.map lowerChar)

/-- Models `str.strip()` with no argument: drop surrounding whitespace. -/
def pyStrip (s : String) : String :=
  String.mk (((s.data.dropWhile pyWsChar).reverse.dropWhile pyWsChar).reverse)

/-- Does `hay` start with `needle`? -/
def charsStartWith : List Char → List Char → Bool
  | [], _ => true
  | _ :: _, [] => false
  | a :: as, b :: bs => a == b && charsStartWith as bs

/-- Python's `needle in hay` substring containment. -/
def charsContain (needle : List Char) : List Char → Bool
  | [] => charsStartWith needle []
  | c :: rest => charsStartWith needle (c :: rest) || charsContain needle rest

/-- Fuel-driven core of `str.replace(old, new)` (all occurrences, left to right). -/
def pyReplaceAux (old new : List Char) : Nat → List Char → List Char
  | 0, hay => hay
  | _ + 1, [] => []
  | fuel + 1, c :: rest =>
    if charsStartWith old (c :: rest) && !old.isEmpty then
      new ++ pyReplaceAux old new fuel ((c :: rest).drop old.length)
    else
      c :: pyReplaceAux old new fuel rest

/-- Python's `str.replace(old, new)` (for nonempty `old`, the only use here). -/
def pyReplace (s old new : String) : String :=
  String.mk (pyReplaceAux old.data new.data (s.length + 1) s.data)

/-- Split a character list at every occurrence of `sep`. -/
def splitCharsOn (sep : Char) : List Char → List (List Char)
  | [] => [[]]
  | c :: rest =>
    let r := splitCharsOn sep rest
    if c == sep then [] :: r
    else match r with
      | [] => [[c]]
      | g :: gs => (c :: g) :: gs

/-- Python's `url.split("/")[-1]`: the final path segment. -/
def lastSegment (s : String) : String :=
  String.mk ((splitCharsOn '/' s.data).getLastD [])

/-- Models `" ".join(strings)`. -/
def joinSpace : List String → String
  | [] => ""
  | [s] => s
  | s :: rest => s ++ " " ++ joinSpace rest

/-- Start code points of the Unicode 15 `Nd` (decimal digit) blocks: every
`Nd` block is ten consecutive code points with values 0–9.  Python's `int`,
`str.isdigit`-class conversions and `re`'s `\d` accept all of these. -/
def ndRangeStarts : List Nat :=
  [0x30, 0x660, 0x6F0, 0x7C0, 0x966, 0x9E6, 0xA66, 0xAE6, 0xB66, 0xBE6,
   0xC66, 0xCE6, 0xD66, 0xDE6, 0xE50, 0xED0, 0xF20, 0x1040, 0x1090, 0x17E0,
   0x1810, 0x1946, 0x19D0, 0x1A80, 0x1A90, 0x1B50, 0x1BB0, 0x1C40, 0x1C50,
   0xA620, 0xA8D0, 0xA900, 0xA9D0, 0xA9F0, 0xAA50, 0xABF0, 0xFF10, 0x104A0,
   0x10D30, 0x11066, 0x110F0, 0x11136, 0x111D0, 0x112F0, 0x11450, 0x114D0,
   0x11650, 0x116C0, 0x11730, 0x118E0, 0x11950, 0x11C50, 0x11D50, 0x11DA0,
   0x11F50, 0x16A60, 0x16AC0, 0x16B50, 0x1D7CE, 0x1D7D8, 0x1D7E2, 0x1D7EC,
   0x1D7F6, 0x1E140, 0x1E2F0, 0x1E4F0, 0x1E950, 0x1FBF0]

/-- Value of a Unicode decimal digit (category `Nd`), if the character is
one: what Python's `int()` and `re`'s `\d` treat as a digit. -/
def pyDigitVal (c : Char) : Option Nat :=
  (ndRangeStarts.find? (fun s => decide (s ≤ c.toNat ∧ c.toNat ≤ s + 9))).map
    (fun s => c.toNat - s)

/-- Is the character a Unicode decimal digit (`\d` in Python's `re`)? -/
def pyIsDigit (c : Char) : Bool := (pyDigitVal c).isSome

/-- Digit-run parser for Python's `int(str)`: Unicode decimal digits with
single underscores allowed between digits. Returns the value. -/
def pyDigitsAux : List Char → Nat → Option Nat
  | [], acc => some acc
  | '_' :: d :: rest, acc =>
    (match pyDigitVal d with
     | some v => pyDigitsAux rest (acc * 10 + v)
     | none => none)
  | c :: rest, acc =>
    match pyDigitVal c with
    | some v => pyDigitsAux rest (acc * 10 + v)
    | none => none

/-- Digit-run parser entry: first character must be a digit; no trailing `_`. -/
def pyDigits : List Char → Option Nat
  | [] => none
  | c :: rest =>
    match pyDigitVal c with
    | some v =>
      if rest.getLastD '0' == '_' then none
      else pyDigitsAux rest v
    | none => none

/-- Python's `int(s)` on a string: strip whitespace, optional sign, base-10
Unicode decimal digits (with underscore separators); `none` models a raised
`ValueError`. -/
def pyInt (s : String) : Option Int :=
  let cs := ((s.data.dropWhile pyWsChar).reverse.dropWhile pyWsChar).reverse
  match cs with
  | '-' :: rest => (pyDigits rest).map (fun n => -(n : Int))
  | '+' :: rest => (pyDigits rest).map (fun n => (n : Int))
  | rest => (pyDigits rest).map (fun n => (n : Int))

/-! ## Raw XML trees and an executable parser (models `ET.fromstring`) -/

mutual
/-- Raw (pre-namespace-resolution) XML element: tag, attributes, leading text,
children, trailing text (`tail`), mirroring `xml.etree.ElementTree.Element`. -/
inductive RElem : Type where
  | mk (tag : String) (attrs : List (String × String)) (text : Option String)
       (children : RChildren) (tail : Option String)

/-- Children list of a raw element. -/
inductive RChildren : Type where
  | nil
  | cons (c : RElem) (cs : RChildren)
end

/-- Characters allowed in XML names for this model. -/
def xmlNameChar (c : Char) : Bool :=
  c.isAlphanum || c == '.' || c == '-' || c == '_' || c == ':'

/-- Value of a hexadecimal digit, if any. -/
def hexVal (c : Char) : Option Nat :=
  if c.isDigit then some (c.toNat - 48)
  else if 'a' ≤ c ∧ c ≤ 'f' then some (c.toNat - 87)
  else if 'A' ≤ c ∧ c ≤ 'F' then some (c.toNat - 55)
  else none

/-- Decode one entity/character reference after `&` (content up to `;`).
`none` models `ET.ParseError` on an undefined entity. -/
def decodeEntity (body : List Char) : Option Char :=
  if body == "lt".data then some '<'
  else if body == "gt".data then some '>'
  else if body == "amp".data then some '&'
  else if body == "apos".data then some '\x27'
  else if body == "quot".data then some '"'
  else match body with
    | '#' :: 'x' :: hex =>
      if hex ≠ [] ∧ hex.all (fun c => (hexVal c).isSome) then
        some (Char.ofNat (hex.foldl (fun a c => a * 16 + (hexVal c).getD 0) 0))
      else none
    | '#' :: ds =>
      if ds ≠ [] ∧ ds.all (·.isDigit) then
        some (Char.ofNat (ds.foldl (fun a c => a * 10 + (c.toNat - 48)) 0))
      else none
    | _ => none

/-- Read character data up to `<` or end of input, decoding references.
Returns the decoded text and the unconsumed input; `none` on a bad reference. -/
def xmlText : Nat → List Char → Option (List Char × List Char)
  | 0, _ => none
  | _ + 1, [] => some ([], [])
  | fuel + 1, c :: rest =>
    if c == '<' then some ([], c :: rest)
    else if c == '&' then
      let body := rest.takeWhile (fun d => d ≠ ';' && d ≠ '<' && d ≠ '&')
      match rest.drop body.length with
      | ';' :: rest' =>
        match decodeEntity body with
        | some ch => (xmlText fuel rest').map (fun p => (ch :: p.1, p.2))
        | none => none
      | _ => none
    else
      (xmlText fuel rest).map (fun p => (c :: p.1, p.2))

/-- Read a quoted attribute value (after the opening quote), decoding
references; a literal `<` is a parse error, as in ET. -/
def xmlAttrValue (q : Char) : Nat → List Char → Option (List Char × List Char)
  | 0, _ => none
  | _ + 1, [] => none
  | fuel + 1, c :: rest =>
    if c == q then some ([], rest)
    else if c == '<' then none
    else if c == '&' then
      let body := rest.takeWhile (fun d => d ≠ ';' && d ≠ '<' && d ≠ '&')
      match rest.drop body.length with
      | ';' :: rest' =>
        match decodeEntity body with
        | some ch => (xmlAttrValue q fuel rest').map (fun p => (ch :: p.1, p.2))
        | none => none
      | _ => none
    else
      (xmlAttrValue q fuel rest).map (fun p => (c :: p.1, p.2))

/-- Parse the attribute list of a start tag; stops before `>` or `/>`.
Duplicate attribute names are a parse error, as in ET. -/
def xmlAttrs : Nat → List Char → List (String × String) →
    Option (List (String × String) × List Char)
  | 0, _, _ => none
  | fuel + 1, input, acc =>
    let input := input.dropWhile pyWsChar
    match input with
    | [] => none
    | c :: _ =>
      if c == '>' || c == '/' then some (acc.reverse, input)
      else
        let nm := input.takeWhile xmlNameChar
        if nm.isEmpty then none
        else
          let rest := (input.drop nm.length).dropWhile pyWsChar
          match rest with
          | '=' :: rest' =>
            match rest'.dropWhile pyWsChar with
            | q :: rest'' =>
              if q == '"' || q == '\x27' then
                match xmlAttrValue q (rest''.length + 1) rest'' with
                | some (v, rest''') =>
                  let name := String.mk nm
                  if acc.any (fun p => p.1 == name) then none
                  else xmlAttrs fuel rest''' ((name, String.mk v) :: acc)
                | none => none
              else none
            | [] => none
          | _ => none

/-- Optional text wrapper: ET stores `None` rather than the empty string. -/
def optText (cs : List Char) : Option String :=
  if cs.isEmpty then none else some (String.mk cs)

/-- Attach a tail to a parsed child element. -/
def rewithTail : RElem → Option String → RElem
  | .mk t a x cs _, tl => .mk t a x cs tl

mutual
/-- Parse one element starting at `<`. -/
def xmlElement : Nat → List Char → Option (RElem × List Char)
  | 0, _ => none
  | fuel + 1, input =>
    match input with
    | '<' :: rest =>
      let nm := rest.takeWhile xmlNameChar
      if nm.isEmpty then none
      else
        match xmlAttrs (rest.length + 1) (rest.drop nm.length) [] with
        | none => none
        | some (attrs, rest') =>
          match rest' with
          | '/' :: '>' :: rest'' =>
            some (.mk (String.mk nm) attrs none .nil none, rest'')
          | '>' :: rest'' =>
            match xmlContent fuel rest'' with
            | none => none
            | some (text, children, rest''') =>
              match rest''' with
              | '<' :: '/' :: restc =>
                let nm2 := restc.takeWhile xmlNameChar
                if nm2 == nm then
                  match (restc.drop nm2.length).dropWhile pyWsChar with
                  | '>' :: restd =>
                    some (.mk (String.mk nm) attrs (optText text) children none, restd)
                  | _ => none
                else none
              | _ => none
          | _ => none
    | _ => none

/-- Parse mixed content: leading text, then children each with a tail,
stopping before a closing tag. -/
def xmlContent : Nat → List Char → Option (List Char × RChildren × List Char)
  | 0, _ => none
  | fuel + 1, input =>
    match xmlText (input.length + 1) input with
    | none => none
    | some (text, rest) =>
      match rest with
      | '<' :: '/' :: _ => some (text, .nil, rest)
      | '<' :: _ =>
        match xmlElement fuel rest with
        | none => none
        | some (child, rest') =>
          match xmlText (rest'.length + 1) rest' with
          | none => none
          | some (tailTxt, rest'') =>
            match rest'' with
            | '<' :: '/' :: _ =>
              some (text, .cons (rewithTail child (optText tailTxt)) .nil, rest'')
            | '<' :: _ =>
              match xmlContent fuel rest'' with
              | none => none
              | some (moreText, more, rest''') =>
                if moreText.isEmpty then
                  some (text, .cons (rewithTail child (optText tailTxt)) more, rest''')
                else none
            | [] => none
            | _ => none
      | [] => some (text, .nil, [])
      | _ => none
end

/-- Skip a leading `<?xml ...?>` declaration if present. -/
def skipXmlDecl (input : List Char) : List Char :=
  match input with
  | '<' :: '?' :: rest =>
    let body := rest.takeWhile (fun c => c ≠ '?')
    match rest.drop body.length with
    | '?' :: '>' :: rest' => rest'
    | _ => input
  | _ => input

/-- Parse a whole document into a raw tree: optional declaration, optional
surrounding whitespace, exactly one root element, nothing else. -/
def fromstringRaw (s : String) : Option RElem :=
  let input := (skipXmlDecl (s.data.dropWhile pyWsChar)).dropWhile pyWsChar
  match xmlElement (input.length + 1) input with
  | some (e, rest) => if (rest.dropWhile pyWsChar).isEmpty then some e else none
  | none => none

/-! ## Namespace resolution (models ET's Clark-name expansion, structurally) -/

/-- A namespace-qualified name: optional namespace URI plus local name.
ET represents this as a single Clark string; the pair is equivalent. -/
structure NsName where
  ns : Option String
  name : String
deriving DecidableEq, BEq

mutual
/-- Namespace-resolved XML element (the form the Python code inspects). -/
inductive Elem : Type where
  | mk (tag : NsName) (attrib : List (NsName × String)) (text : Option String)
       (children : Children) (tail : Option String)

/-- Children list of a resolved element. -/
inductive Children : Type where
  | nil
  | cons (c : Elem) (cs : Children)
end

/-- In-scope namespace bindings while resolving. -/
structure NsEnv where
  dflt : Option String
  prefixes : List (String × String)

/-- Split a raw name at its first colon, if any. -/
def splitQName (s : String) : Option (String × String) :=
  let pre := s.data.takeWhile (fun c => c ≠ ':')
  match s.data.drop pre.length with
  | ':' :: rest => some (String.mk pre, String.mk rest)
  | _ => none

/-- Fold `xmlns` / `xmlns:p` attributes into the environment. -/
def applyXmlns (env : NsEnv) : List (String × String) → NsEnv
  | [] => env
  | (n, v) :: rest =>
    if n == "xmlns" then
      applyXmlns { env with dflt := if v == "" then none else some v } rest
    else if charsStartWith "xmlns:".data n.data then
      let p := String.mk (n.data.drop 6)
      applyXmlns { env with prefixes := (p, v) :: env.prefixes } rest
    else applyXmlns env rest

/-- Resolve an element tag name against the environment; `none` models the
`ParseError` ET raises on an unbound prefix. -/
def resolveTag (env : NsEnv) (s : String) : Option NsName :=
  match splitQName s with
  | some (p, loc) =>
    match (env.prefixes.find? (fun q => q.1 == p)).map Prod.snd with
    | some uri => some ⟨some uri, loc⟩
    | none => none
  | none => some ⟨env.dflt, s⟩

/-- Resolve attribute names: `xmlns` declarations are dropped (ET removes
them from `attrib`); unprefixed attributes carry no namespace. -/
def resolveAttrs (env : NsEnv) : List (String × String) → Option (List (NsName × String))
  | [] => some []
  | (n, v) :: rest =>
    if n == "xmlns" || charsStartWith "xmlns:".data n.data then
      resolveAttrs env rest
    else
      match splitQName n with
      | some (p, loc) =>
        match (env.prefixes.find? (fun q => q.1 == p)).map Prod.snd with
        | some uri => (resolveAttrs env rest).map (fun as => (⟨some uri, loc⟩, v) :: as)
        | none => none
      | none => (resolveAttrs env rest).map (fun as => (⟨none, n⟩, v) :: as)

mutual
/-- Resolve a raw element to a namespaced one. -/
def resolveElem (env : NsEnv) : RElem → Option Elem
  | .mk tag attrs text cs tail =>
    let env' := applyXmlns env attrs
    match resolveTag env' tag with
    | none => none
    | some tag' =>
      match resolveAttrs env' attrs with
      | none => none
      | some attrs' =>
        match resolveKids env' cs with
        | none => none
        | some cs' => some (.mk tag' attrs' text cs' tail)

/-- Resolve each child. -/
def resolveKids (env : NsEnv) : RChildren → Option Children
  | .nil => some .nil
  | .cons c cs =>
    match resolveElem env c with
    | none => none
    | some c' =>
      match resolveKids env cs with
      | none => none
      | some cs' => some (.cons c' cs')
end

/-- Models `xml.etree.ElementTree.fromstring`: parse plus namespace resolution;
`none` models a raised `ParseError`. -/
def fromstring (s : String) : Option Elem :=
  match fromstringRaw s with
  | none => none
  | some r => resolveElem ⟨none, []⟩ r

/-! ## Tree accessors and searches used by the Python code -/

/-- The element's tag. -/
def Elem.tag : Elem → NsName
  | .mk t _ _ _ _ => t

/-- The element's attribute dictionary. -/
def Elem.attrib : Elem → List (NsName × String)
  | .mk _ a _ _ _ => a

/-- The element's leading text (`.text`), `none` for Python `None`. -/
def Elem.text : Elem → Option String
  | .mk _ _ x _ _ => x

/-- The element's children. -/
def Elem.children : Elem → Children
  | .mk _ _ _ cs _ => cs

/-- The element's tail text. -/
def Elem.tailText : Elem → Option String
  | .mk _ _ _ _ tl => tl

/-- Convert a children list to a `List`. -/
def Children.toList : Children → List Elem
  | .nil => []
  | .cons c cs => c :: Children.toList cs

/-- Models `element.attrib.get(key)`. -/
def attrGet (attrs : List (NsName × String)) (key : NsName) : Option String :=
  (attrs.find? (fun p => p.1 == key)).map Prod.snd

mutual
/-- All proper descendants of an element, in document order (what
`findall(".//tag")` traverses; the root itself is excluded). -/
def descendants : Elem → List Elem
  | .mk _ _ _ cs _ => descList cs

/-- Descendants contributed by a children list. -/
def descList : Children → List Elem
  | .nil => []
  | .cons c cs => c :: (descendants c ++ descList cs)
end

/-- Models `root.findall(".//" + tag)`: descendants with the given resolved tag. -/
def findAll (e : Elem) (t : NsName) : List Elem :=
  (descendants e).filter (fun c => c.tag == t)

/-- Models `root.findall(tag)`: direct children with the given resolved tag. -/
def directChildren (e : Elem) (t : NsName) : List Elem :=
  e.children.toList.filter (fun c => c.tag == t)

/-- A text node contributes only when truthy (non-`None`, nonempty). -/
def truthyText : Option String → List String
  | none => []
  | some s => if s == "" then [] else [s]

mutual
/-- Models `element.itertext()`: the element's text followed by, for each child,
its own itertext and then its tail (empty strings are skipped). -/
def itertext : Elem → List String
  | .mk _ _ text cs _ => truthyText text ++ itertextList cs

/-- itertext over a children list. -/
def itertextList : Children → List String
  | .nil => []
  | .cons c cs => itertext c ++ truthyText c.tailText ++ itertextList cs
end


/-! ## Configuration (`api_config.py`) -/

/-- Keywords whose presence excludes a document (`EXCLUDE_KEYWORDS`). -/
def EXCLUDE_KEYWORDS : List String :=
  ["parkeerplaats", "laadpaal", "gehandicapt", "oplaadpunt",
   "parkeerverbod", "parkeervergunning", "parkeerregime",
   "parkeermogelijkheden", "parkeervoorzieningen",
   "parkeersituatie", "parkeersituaties", "parkeerplaatsen",
   "parkeerplaatsvoorzieningen"]

/-- Constant `MIN_PDF_SIZE_BYTES`. -/
def MIN_PDF_SIZE_BYTES : Nat := 50000

/-- Constant `SRU_BASE_URL`. -/
def SRU_BASE_URL : String := "https://repository.overheid.nl/sru"

/-- Constant `SRU_VERSION`. -/
def SRU_VERSION : String := "2.0"

/-- Constant `SRU_OPERATION`. -/
def SRU_OPERATION : String := "searchRetrieve"

/-- Constant `MAX_RECORDS_PER_REQUEST`. -/
def MAX_RECORDS_PER_REQUEST : Nat := 900

/-- Constant `MAX_RETRIES`. -/
def MAX_RETRIES : Nat := 3

/-- Constant `SUCCESSFUL_REQUESTS_TO_RESET`. -/
def SUCCESSFUL_REQUESTS_TO_RESET : Nat := 5

/-- Constant `PDF_CONVERSION_DPI`. -/
def PDF_CONVERSION_DPI : Nat := 300

/-- Constant `REPOSITORY_BASE_URL`. -/
def REPOSITORY_BASE_URL : String := "https://repository.officiele-overheidspublicaties.nl"

/-- Constant `ZOEK_BASE_URL`. -/
def ZOEK_BASE_URL : String := "https://zoek.officielebekendmakingen.nl"

/-- Models `QUERY_TEMPLATE.format(date_start=d, date_end=d, exclude_keywords=...)`. -/
def query_for_date (d : String) : String :=
  let kw := joinSpace EXCLUDE_KEYWORDS
  "(c.product-area==officielepublicaties AND dt.modified>=" ++ d ++
  " AND dt.modified<=" ++ d ++
  " AND dt.type = \"verkeersbesluit \" AND cql.allRecords =1 NOT dt.title any \"" ++
  kw ++ "\" AND cql.allRecords=1 NOT dt.alternative any \"" ++ kw ++ "\" )"

/-! ## Rate-limited fetcher (`make_rate_limited_request`)

The network is an attempt-indexed oracle; sleeping only affects wall-clock
time, not results, and is not modelled.  The function-level static state
(`_rate_limited`, `_successful_requests`) is passed explicitly;
`_last_request_time` only drives sleep lengths and is omitted. -/

/-- HTTP response as seen through `requests` (body as decoded text). -/
structure Response where
  status_code : Nat
  headers : List (String × String)
  content : String
deriving DecidableEq

/-- What one `requests.get` call does: return a response, or raise
`requests.RequestException`. -/
inductive AttemptResult where
  | resp (r : Response)
  | exn

/-- The fetcher's shared adaptive-throttle state. -/
structure RateLimitState where
  rate_limited : Bool
  successful_requests : Nat
deriving DecidableEq

/-- Result of one whole `make_rate_limited_request` call: a returned value
(`done`, with the `None` sentinel as `none`) or an uncaught exception
(`raised`, from `int()` on a malformed `Retry-After`).  `made` counts the
HTTP attempts actually issued. -/
inductive FetchRun where
  | raised (made : Nat)
  | done (res : Option Response) (st : RateLimitState) (made : Nat)
deriving DecidableEq

/-- Number of HTTP attempts the call issued. -/
def FetchRun.made : FetchRun → Nat
  | .raised m => m
  | .done _ _ m => m

/-- Models `requests` header lookup (case-insensitive, first match). -/
def headerGet (headers : List (String × String)) (key : String) : Option String :=
  (headers.find? (fun p => pyLower p.1 == pyLower key)).map Prod.snd

/-- Models `response.ok` in `requests`: `raise_for_status` raises only for
client errors (400–499) and server errors (500–599), so `ok` — and the
response's truthiness — is False exactly for statuses 400–599 and True for
everything else, including statuses of 600 and above. -/
def respOk (r : Response) : Bool :=
  !(decide (400 ≤ r.status_code) && decide (r.status_code ≤ 599))

/-- The retry loop of `make_rate_limited_request`, one case per source
branch: 429 (with `Retry-After` handling, where `int()` raises `ValueError`
on a non-integer value and `time.sleep` raises `ValueError` on a negative
one — both uncaught; the platform-dependent `OverflowError` on
astronomically large sleeps is not modelled), `ok` success (with the
throttle-reset check), other HTTP failure (returned immediately), and
`RequestException` (retried until the budget is spent). -/
def fetchAux (oracle : Nat → AttemptResult) :
    Nat → Nat → RateLimitState → Nat → FetchRun
  | 0, _, st, made => .done none st made
  | fuel + 1, attempt, st, made =>
    match oracle attempt with
    | .exn =>
      let st' : RateLimitState := ⟨st.rate_limited, 0⟩
      if attempt == MAX_RETRIES then .done none st' (made + 1)
      else fetchAux oracle fuel (attempt + 1) st' (made + 1)
    | .resp r =>
      if r.status_code == 429 then
        let st' : RateLimitState := ⟨true, 0⟩
        match headerGet r.headers "Retry-After" with
        | none => fetchAux oracle fuel (attempt + 1) st' (made + 1)
        | some ra =>
          if ra == "" then fetchAux oracle fuel (attempt + 1) st' (made + 1)
          else match pyInt ra with
            | some v =>
              if v < 0 then .raised (made + 1)
              else fetchAux oracle fuel (attempt + 1) st' (made + 1)
            | none => .raised (made + 1)
      else if respOk r then
        let n := st.successful_requests + 1
        if st.rate_limited ∧ SUCCESSFUL_REQUESTS_TO_RESET ≤ n then
          .done (some r) ⟨false, 0⟩ (made + 1)
        else
          .done (some r) ⟨st.rate_limited, n⟩ (made + 1)
      else
        .done (some r) ⟨st.rate_limited, 0⟩ (made + 1)

/-- Models `make_rate_limited_request(url, ...)` for a given network oracle and
shared state: up to `MAX_RETRIES + 1` loop iterations. -/
def make_rate_limited_request (oracle : Nat → AttemptResult)
    (st : RateLimitState) : FetchRun :=
  fetchAux oracle (MAX_RETRIES + 1) 0 st 0

/-- The response a finished call returned, if it returned one. -/
def FetchRun.response : FetchRun → Option Response
  | .raised _ => none
  | .done r _ _ => r

/-- One area marking (`gebied`) as the Python code builds it: a small dict
whose keys are `type` / `geometrie` / `label` and whose values may be the
Python `None` coming from a missing `content` attribute. -/
def Gebied := List (String × Option String)
deriving DecidableEq

/-- A value in the parsed metadata dict: a scalar string, or the list of
area markings stored under the reserved key. -/
inductive MetaValue where
  | scalar (s : String)
  | gebieden (gs : List Gebied)
deriving DecidableEq

/-- Python `dict` assignment `d[k] = v`: overwrite in place, else append. -/
def pyDictSet {α β : Type} [BEq α] : List (α × β) → α → β → List (α × β)
  | [], k, v => [(k, v)]
  | (k', v') :: rest, k, v =>
    if k' == k then (k, v) :: rest else (k', v') :: pyDictSet rest k v

/-- Python `dict.get(k)`. -/
def pyDictGet {α β : Type} [BEq α] (d : List (α × β)) (k : α) : Option β :=
  (d.find? (fun p => p.1 == k)).map Prod.snd

/-- The reserved area-marking metadata name. -/
def gebiedsmarkeringKey : String := "OVERHEIDop.gebiedsmarkering"

/-- Build one `gebied` dict from an area-marking entry: `type` from the
entry's own `content`, then `geometrie` / `label` from nested `metadata`
children matching the reserved sub-names (lines 112–120 of the source). -/
def parseGebied (m : Elem) : Gebied :=
  (directChildren m ⟨none, "metadata"⟩).foldl
    (fun g sub =>
      match attrGet sub.attrib ⟨none, "name"⟩ with
      | some sn =>
        if sn == "OVERHEIDop.geometrie" then
          pyDictSet g "geometrie" (attrGet sub.attrib ⟨none, "content"⟩)
        else if sn == "OVERHEIDop.geometrieLabel" then
          pyDictSet g "label" (attrGet sub.attrib ⟨none, "content"⟩)
        else g
      | none => g)
    [("type", attrGet m.attrib ⟨none, "content"⟩)]

/-- The loop of `parse_metadata_block` over the direct `metadata` children:
reserved-name entries accumulate area markings, truthy name/content pairs
become stripped scalars, anything else is skipped. -/
def pmbLoop : List Elem → List (String × MetaValue) → List Gebied →
    List (String × MetaValue) × List Gebied
  | [], md, gs => (md, gs)
  | m :: rest, md, gs =>
    let name := attrGet m.attrib ⟨none, "name"⟩
    let content := attrGet m.attrib ⟨none, "content"⟩
    if name == some gebiedsmarkeringKey then
      pmbLoop rest md (gs ++ [parseGebied m])
    else
      match name, content with
      | some n, some c =>
        if n ≠ "" ∧ c ≠ "" then
          pmbLoop rest (pyDictSet md n (.scalar (pyStrip c))) gs
        else pmbLoop rest md gs
      | _, _ => pmbLoop rest md gs

/-- Models `parse_metadata_block(meta_root)`. -/
def parse_metadata_block (meta_root : Elem) : List (String × MetaValue) :=
  let (md, gs) := pmbLoop (directChildren meta_root ⟨none, "metadata"⟩) [] []
  if gs.isEmpty then md else pyDictSet md gebiedsmarkeringKey (.gebieden gs)

/-- The direct `metadata` children of a metadata root whose `name` is the
reserved area-marking name (the entries the reserved branch consumes). -/
def gebiedChildren (meta_root : Elem) : List Elem :=
  (directChildren meta_root ⟨none, "metadata"⟩).filter
    (fun m => attrGet m.attrib ⟨none, "name"⟩ == some gebiedsmarkeringKey)

/-- Predicate: `m` writes scalar key `n` with raw content `c` in the loop: its `name`
is `n` (truthy, not the reserved name) and its `content` is `c` (truthy). -/
def setsKeyWith (m : Elem) (n c : String) : Prop :=
  attrGet m.attrib ⟨none, "name"⟩ = some n ∧ n ≠ "" ∧ n ≠ gebiedsmarkeringKey ∧
  attrGet m.attrib ⟨none, "content"⟩ = some c ∧ c ≠ ""

/-- Predicate: `m` writes scalar key `n` with some content. -/
def setsKey (m : Elem) (n : String) : Prop := ∃ c, setsKeyWith m n c

/-! ## Image locating and text extraction -/

/-- Models `extract_plain_text_from_xml`: join `itertext` with spaces and strip;
a `ParseError` is caught and yields the empty string. -/
def extract_plain_text_from_xml (xml_string : String) : String :=
  match fromstring xml_string with
  | none => ""
  | some root => pyStrip (joinSpace (itertext root))

/-- The direct PDF URL for an external attachment
(`get_pdf_attachment_image_urls`). -/
def pdf_attachment_url (exb_code : String) : String :=
  REPOSITORY_BASE_URL ++ "/externebijlagen/" ++ exb_code ++ "/1/bijlage/" ++
  exb_code ++ ".pdf"

/-- Models `get_pdf_attachment_image_urls(exb_code)`: the single-element list the
source returns. -/
def get_pdf_attachment_image_urls (exb_code : String) : List String :=
  [pdf_attachment_url exb_code]

/-- The URL derived for one embedded illustration file name. -/
def embedded_image_url (naam : String) : String := ZOEK_BASE_URL ++ "/" ++ naam

/-- The illustration file names a parsed document body yields: every
`illustratie` descendant's truthy `naam` attribute, in document order. -/
def illustratieNames (root : Elem) : List String :=
  (findAll root ⟨none, "illustratie"⟩).foldr
    (fun ill acc =>
      match attrGet ill.attrib ⟨none, "naam"⟩ with
      | some n => if n == "" then acc else n :: acc
      | none => acc) []

/-- Models `get_embedded_image_urls_from_xml`: parse the body (a `ParseError` is
caught and yields no URLs), then derive one URL per illustration. -/
def get_embedded_image_urls_from_xml (xml_string : String) : List String :=
  match fromstring xml_string with
  | none => []
  | some root => (illustratieNames root).map embedded_image_url

/-- Models `re.search(r"exb-[^/]+", s)`: leftmost match of `exb-` followed by a
maximal nonempty run of non-`/` characters. -/
def findExbAux : List Char → Option (List Char)
  | [] => none
  | c :: rest =>
    if charsStartWith "exb-".data (c :: rest) then
      let run := ((c :: rest).drop 4).takeWhile (fun ch => ch ≠ '/')
      if run.isEmpty then findExbAux rest
      else some ("exb-".data ++ run)
    else findExbAux rest

/-- String-level wrapper for the `exb-` code search. -/
def findExb (s : String) : Option String := (findExbAux s.data).map String.mk

/-- The image-locating step of the orchestrator (source lines 227–233):
an external-PDF URL derived from the `OVERHEIDop.externeBijlage` metadata
entry (when truthy and containing an `exb-` code) followed by the embedded
illustration URLs.  The reserved aggregate can never sit under the
external-attachment key, so only scalar values are inspected. -/
def locate_images (metadata : List (String × MetaValue)) (content : String) :
    List String :=
  let ext := match pyDictGet metadata "OVERHEIDop.externeBijlage" with
    | some (.scalar s) =>
      if s == "" then []
      else match findExb s with
        | some exb => get_pdf_attachment_image_urls exb
        | none => []
    | _ => []
  ext ++ get_embedded_image_urls_from_xml content

/-! ## Pipeline orchestrator (`get_besluiten_for_date`) -/

/-- One HTTP request the pipeline issues (URL plus query parameters). -/
structure HttpReq where
  url : String
  params : List (String × String)
deriving DecidableEq

/-- A fully assembled per-document result (`combined_data`). -/
structure DocRecord where
  id : String
  text : String
  metadata : List (String × MetaValue)
  images : List String
deriving DecidableEq

/-- The namespaced `recordData` tag of the search response. -/
def sruRecordDataTag : NsName :=
  ⟨some "http://docs.oasis-open.org/ns/search-ws/sruResponse", "recordData"⟩

/-- The namespaced `itemUrl` tag inside a record. -/
def gzdItemUrlTag : NsName := ⟨some "http://standaarden.overheid.nl/sru", "itemUrl"⟩

/-- The per-record manifestation dictionary
`{item.attrib.get("manifestation"): item.text for item in findall(".//gzd:itemUrl")}`. -/
def itemUrlsOf (record : Elem) : List (Option String × Option String) :=
  (findAll record gzdItemUrlTag).foldl
    (fun d item => pyDictSet d (attrGet item.attrib ⟨none, "manifestation"⟩) item.text) []

/-- Models `item_urls.get(key)` followed by the Python truthiness test the source
applies (`if not content_url` / `if metadata_url`): a URL counts only when
present and nonempty. -/
def truthyUrl (d : List (Option String × Option String)) (key : String) :
    Option String :=
  match pyDictGet d (some key) with
  | some (some s) => if s == "" then none else some s
  | _ => none

/-- Assembly of `combined_data` for one record (source lines 235–240). -/
def assembleRecord (content_url content : String)
    (metadata : List (String × MetaValue)) : DocRecord :=
  { id := pyReplace (lastSegment content_url) ".xml" ""
    text := extract_plain_text_from_xml content
    metadata := metadata
    images := locate_images metadata content }

/-- The body of the per-record loop (source lines 201–241).  The fetcher is
abstracted as a URL-keyed oracle (`none` = the `None` sentinel after
exhausted retries).  Returns the assembled record (or `none` when the
record is skipped) and the requests issued; `Except.error` models the
uncaught `ET.ParseError` raised while parsing a fetched metadata document
(source line 224 is not guarded by any `try`). -/
def processRecord (fetch : HttpReq → Option Response) (record : Elem) :
    Except String (Option DocRecord × List HttpReq) :=
  let item_urls := itemUrlsOf record
  match truthyUrl item_urls "xml" with
  | none => .ok (none, [])
  | some content_url =>
    match fetch ⟨content_url, []⟩ with
    | none => .ok (none, [⟨content_url, []⟩])
    | some xml_resp =>
      if respOk xml_resp then
        let content := xml_resp.content
        if EXCLUDE_KEYWORDS.any (fun k => charsContain k.data (pyLower content).data) then
          .ok (none, [⟨content_url, []⟩])
        else
          match truthyUrl item_urls "metadata" with
          | none => .ok (some (assembleRecord content_url content []), [⟨content_url, []⟩])
          | some metadata_url =>
            match fetch ⟨metadata_url, []⟩ with
            | none =>
              .ok (some (assembleRecord content_url content []),
                   [⟨content_url, []⟩, ⟨metadata_url, []⟩])
            | some meta_resp =>
              if respOk meta_resp then
                match fromstring meta_resp.content with
                | none => .error "ET.ParseError while parsing metadata"
                | some meta_root =>
                  .ok (some (assembleRecord content_url content
                               (parse_metadata_block meta_root)),
                       [⟨content_url, []⟩, ⟨metadata_url, []⟩])
              else
                .ok (some (assembleRecord content_url content []),
                     [⟨content_url, []⟩, ⟨metadata_url, []⟩])
      else .ok (none, [⟨content_url, []⟩])

/-- Fold of `processRecord` over the extracted records; an exception in any
iteration aborts the remaining ones, as in Python. -/
def processRecords (fetch : HttpReq → Option Response) :
    List Elem → Except String (List DocRecord × List HttpReq)
  | [] => .ok ([], [])
  | r :: rs =>
    match processRecord fetch r with
    | .error e => .error e
    | .ok (orec, log1) =>
      match processRecords fetch rs with
      | .error e => .error e
      | .ok (recs, log2) =>
        .ok ((match orec with | some d => d :: recs | none => recs), log1 ++ log2)

/-- The search request the orchestrator issues for a date. -/
def searchReq (date_str : String) : HttpReq :=
  ⟨SRU_BASE_URL,
   [("version", SRU_VERSION), ("operation", SRU_OPERATION),
    ("query", query_for_date date_str),
    ("maximumRecords", toString MAX_RECORDS_PER_REQUEST)]⟩

/-- Models `get_besluiten_for_date(date_str)` over a network oracle: build and
issue the search query, parse the response (a `ParseError` here is caught
and yields `[]`), then run the per-record loop.  The second component is
the list of requests issued (the search request first). -/
def get_besluiten_for_date (fetch : HttpReq → Option Response)
    (date_str : String) : Except String (List DocRecord) × List HttpReq :=
  match fetch (searchReq date_str) with
  | none => (.ok [], [searchReq date_str])
  | some response =>
    if respOk response then
      match fromstring response.content with
      | none => (.ok [], [searchReq date_str])
      | some root =>
        match processRecords fetch (findAll root sruRecordDataTag) with
        | .error e => (.error e, [searchReq date_str])
        | .ok (recs, log) => (.ok recs, searchReq date_str :: log)
    else (.ok [], [searchReq date_str])

/-! ## PDF materializer (`download_en_convert_pdf_bijlage`)

PDF rendering (`convert_from_bytes`), PNG encoding (`page.save` into a
buffer) and the classification collaborator (`should_download_image`) are
black-box capabilities, passed as functions; the filesystem is the list of
paths written so far. -/

/-- Models `download_en_convert_pdf_bijlage(pdf_exb_code, besluit_id)`: download
the PDF, require HTTP 200 and a body larger than `MIN_PDF_SIZE_BYTES`,
render pages, encode the first page and persist it only on a positive
classification verdict.  Returns the relative image URL (or `""`), the
updated filesystem and the requests issued. -/
def download_en_convert_pdf_bijlage
    (fetch : HttpReq → Option Response)
    (convert_from_bytes : String → Nat → List String)
    (should_download_image : String → Bool)
    (pageBytes : String → String)
    (fs : List String) (pdf_exb_code besluit_id : String) :
    String × List String × List HttpReq :=
  let url := pdf_attachment_url pdf_exb_code
  let req : HttpReq := ⟨url, []⟩
  match fetch req with
  | none => ("", fs, [req])
  | some resp =>
    if resp.status_code == 200 ∧ MIN_PDF_SIZE_BYTES < resp.content.length then
      match convert_from_bytes resp.content PDF_CONVERSION_DPI with
      | [] => ("", fs, [req])
      | page :: _ =>
        let img_bytes := pageBytes page
        let output_path := "afbeeldingen/" ++ besluit_id ++ "_page_1_bijlage.png"
        if should_download_image img_bytes then
          ("/" ++ output_path, fs ++ [output_path], [req])
        else ("", fs, [req])
    else ("", fs, [req])

/-! ## HTTP endpoint (`api.py`, `get_besluiten_by_date`) -/

/-- What the endpoint hands back, by category. -/
inductive ApiResult where
  | validationError
  | badRequest
  | notFound
  | internalError
  | ok (data : List DocRecord)
deriving DecidableEq

/-- The FastAPI path constraint for the date segment, the Python regex
`^\d{4}-\d{2}-\d{2}$` matched with `re`: `\d` matches any Unicode decimal
digit and `$` also matches just before one trailing newline. -/
def dateRegexMatch (s : String) : Bool :=
  let cs := if s.data.getLastD ' ' == '\n' then s.data.dropLast else s.data
  match cs with
  | [a, b, c, d, h1, e, f, h2, g, h] =>
    pyIsDigit a && pyIsDigit b && pyIsDigit c && pyIsDigit d && h1 == '-' &&
    pyIsDigit e && pyIsDigit f && h2 == '-' && pyIsDigit g && pyIsDigit h
  | _ => false

/-- Gregorian leap-year test. -/
def isLeap (y : Nat) : Bool := (y % 4 == 0 && y % 100 != 0) || y % 400 == 0

/-- Days in a month. -/
def daysInMonth (y m : Nat) : Nat :=
  if m == 2 then (if isLeap y then 29 else 28)
  else if m == 4 || m == 6 || m == 9 || m == 11 then 30 else 31

/-- Is the character in the ASCII class `[1-9]` used literally by
CPython's strptime patterns? -/
def ascii19 (c : Char) : Bool := '1' ≤ c && c ≤ '9'

/-- Modelled from CPython's `_strptime` month pattern
`1[0-2]|0[1-9]|[1-9]` (ASCII literals and classes): every way the
alternation can consume a prefix, in order, as (value, remaining input). -/
def strptimeMonthAlts (input : List Char) : List (Nat × List Char) :=
  (match input with
   | '1' :: c :: r =>
     if c == '0' || c == '1' || c == '2' then [(10 + (c.toNat - 48), r)] else []
   | _ => []) ++
  (match input with
   | '0' :: c :: r => if ascii19 c then [(c.toNat - 48, r)] else []
   | _ => []) ++
  (match input with
   | c :: r => if ascii19 c then [(c.toNat - 48, r)] else []
   | _ => [])

/-- Modelled from CPython's `_strptime` day pattern
`3[01]|[12]\d|0[1-9]|[1-9]` (note the Unicode `\d` in the second
alternative): every way the alternation can consume a prefix, in order. -/
def strptimeDayAlts (input : List Char) : List (Nat × List Char) :=
  (match input with
   | '3' :: c :: r => if c == '0' || c == '1' then [(30 + (c.toNat - 48), r)] else []
   | _ => []) ++
  (match input with
   | c :: c2 :: r =>
     if (c == '1' || c == '2') && pyIsDigit c2 then
       [(10 * (c.toNat - 48) + (pyDigitVal c2).getD 0, r)]
     else []
   | _ => []) ++
  (match input with
   | '0' :: c :: r => if ascii19 c then [(c.toNat - 48, r)] else []
   | _ => []) ++
  (match input with
   | c :: r => if ascii19 c then [(c.toNat - 48, r)] else []
   | _ => [])

/-- Modelled from the Python standard library:
`datetime.strptime(s, "%Y-%m-%d")` compiles to
`(?P<Y>\d\d\d\d)-(?P<m>1[0-2]|0[1-9]|[1-9])-(?P<d>3[01]|[12]\d|0[1-9]|[1-9])`
(`\d` Unicode), matched at the start with backtracking, then requires the
whole string consumed ("unconverted data remains") and a constructible
date (`year ≥ 1`, day within the month, proleptic Gregorian). -/
def strptimeValid (s : String) : Bool :=
  match s.data with
  | y1 :: y2 :: y3 :: y4 :: '-' :: rest =>
    match pyDigitVal y1, pyDigitVal y2, pyDigitVal y3, pyDigitVal y4 with
    | some a, some b, some c, some d =>
      let y := ((a * 10 + b) * 10 + c) * 10 + d
      decide (1 ≤ y) &&
      (strptimeMonthAlts rest).any (fun mp =>
        match mp.2 with
        | '-' :: rest2 =>
          (strptimeDayAlts rest2).any (fun dp =>
            dp.2.isEmpty && decide (dp.1 ≤ daysInMonth y mp.1))
        | _ => false)
    | _, _, _, _ => false
  | _ => false

/-- The endpoint's post-processing loop (api.py lines 104–120): when a
result's first image URL points at `externebijlagen`, extract the `exb-`
code, materialize the PDF, and either substitute the produced image URL or
empty the image list. -/
def apiPostProcess
    (fetch : HttpReq → Option Response)
    (convert_from_bytes : String → Nat → List String)
    (should_download_image : String → Bool)
    (pageBytes : String → String) :
    List DocRecord → List String → List DocRecord × List String × List HttpReq
  | [], fs => ([], fs, [])
  | b :: rest, fs =>
    let step :=
      match b.images with
      | img0 :: imgRest =>
        if charsContain "externebijlagen".data img0.data then
          match findExb img0 with
          | some exb =>
            let (image_url, fs', reqs) :=
              download_en_convert_pdf_bijlage fetch convert_from_bytes
                should_download_image pageBytes fs exb b.id
            if image_url == "" then
              (({ b with images := [] } : DocRecord), fs', reqs)
            else (({ b with images := image_url :: imgRest } : DocRecord), fs', reqs)
          | none => (b, fs, [])
        else (b, fs, [])
      | [] => (b, fs, [])
    let (rest', fs'', reqs') :=
      apiPostProcess fetch convert_from_bytes should_download_image pageBytes
        rest step.2.1
    (step.1 :: rest', fs'', step.2.2 ++ reqs')

/-- Models `GET /besluiten/{date_str}` (api.py lines 71–129): FastAPI rejects a
path segment that fails the regex before the handler runs; the handler
re-validates with `strptime` (HTTP 400), treats an empty result as 404,
post-processes PDF attachments, and maps any uncaught exception from the
pipeline to HTTP 500. -/
def get_besluiten_by_date
    (fetch : HttpReq → Option Response)
    (convert_from_bytes : String → Nat → List String)
    (should_download_image : String → Bool)
    (pageBytes : String → String)
    (fs : List String) (date_str : String) :
    ApiResult × List String × List HttpReq :=
  if !dateRegexMatch date_str then (.validationError, fs, [])
  else if !strptimeValid date_str then (.badRequest, fs, [])
  else
    match get_besluiten_for_date fetch date_str with
    | (.error _, log) => (.internalError, fs, log)
    | (.ok [], log) => (.notFound, fs, log)
    | (.ok bs, log) =>
      let (bs', fs', log') :=
        apiPostProcess fetch convert_from_bytes should_download_image pageBytes bs fs
      (.ok bs', fs', log ++ log')

/-! ## Concrete scenarios (used by the theorems below) -/

/-- Helper to build a `Children` value from a list. -/
def Children.ofList : List Elem → Children
  | [] => .nil
  | c :: cs => .cons c (Children.ofList cs)

/-- Helper for a 200 response with a given body. -/
def okResp (body : String) : Response := ⟨200, [], body⟩

/-- Search-response XML advertising one record with content and metadata
manifestations. -/
def searchXmlBoth : String :=
  "<sru:searchRetrieveResponse xmlns:sru=\"http://docs.oasis-open.org/ns/search-ws/sruResponse\" xmlns:gzd=\"http://standaarden.overheid.nl/sru\"><sru:records><sru:record><sru:recordData><gzd:gzd><gzd:itemUrl manifestation=\"xml\">http://x/doc1.xml</gzd:itemUrl><gzd:itemUrl manifestation=\"metadata\">http://x/meta1.xml</gzd:itemUrl></gzd:gzd></sru:recordData></sru:record></sru:records></sru:searchRetrieveResponse>"

/-- Search-response XML advertising one record with only a content
manifestation. -/
def searchXmlContentOnly : String :=
  "<sru:searchRetrieveResponse xmlns:sru=\"http://docs.oasis-open.org/ns/search-ws/sruResponse\" xmlns:gzd=\"http://standaarden.overheid.nl/sru\"><sru:records><sru:record><sru:recordData><gzd:itemUrl manifestation=\"xml\">http://x/doc1.xml</gzd:itemUrl></sru:recordData></sru:record></sru:records></sru:searchRetrieveResponse>"

/-- Network oracle: benign content, malformed metadata document. -/
def fetchMalformedMeta : HttpReq → Option Response := fun req =>
  if req.url == SRU_BASE_URL then some (okResp searchXmlBoth)
  else if req.url == "http://x/doc1.xml" then some (okResp "<besluit>tekst</besluit>")
  else if req.url == "http://x/meta1.xml" then some (okResp "<<malformed")
  else none

/-- Network oracle: benign content, metadata fetch yields the `None`
sentinel (all retries failed). -/
def fetchMetaDown : HttpReq → Option Response := fun req =>
  if req.url == SRU_BASE_URL then some (okResp searchXmlBoth)
  else if req.url == "http://x/doc1.xml" then some (okResp "<besluit>tekst</besluit>")
  else none

/-- Network oracle: content whose raw bytes hide the keyword
`parkeerplaats` behind a character reference. -/
def fetchEntitySmuggled : HttpReq → Option Response := fun req =>
  if req.url == SRU_BASE_URL then some (okResp searchXmlContentOnly)
  else if req.url == "http://x/doc1.xml" then some (okResp "<a>parkeer&#112;laats</a>")
  else none

/-- Network oracle: content that is not XML at all. -/
def fetchPlainContent : HttpReq → Option Response := fun req =>
  if req.url == SRU_BASE_URL then some (okResp searchXmlContentOnly)
  else if req.url == "http://x/doc1.xml" then some (okResp "plain, not xml")
  else none

/-- Helper to build a `gzd:itemUrl` element. -/
def itemUrlElem (manifestation url : String) : Elem :=
  .mk gzdItemUrlTag [(⟨none, "manifestation"⟩, manifestation)] (some url) .nil none

/-- A concrete `recordData` element advertising content and metadata URLs. -/
def recordBoth : Elem :=
  .mk sruRecordDataTag [] none
    (Children.ofList [itemUrlElem "xml" "http://x/doc1.xml",
                      itemUrlElem "metadata" "http://x/meta1.xml"]) none

/-- A concrete `recordData` element advertising only a content URL. -/
def recordContentOnly : Elem :=
  .mk sruRecordDataTag [] none
    (Children.ofList [itemUrlElem "xml" "http://x/doc1.xml"]) none

/-- Helper to build a `metadata` element with given attributes and children. -/
def metaElem (attrs : List (NsName × String)) (kids : List Elem) : Elem :=
  .mk ⟨none, "metadata"⟩ attrs none (Children.ofList kids) none

/-- First concrete area-marking entry. -/
def gebied1 : Elem :=
  metaElem [(⟨none, "name"⟩, "OVERHEIDop.gebiedsmarkering"), (⟨none, "content"⟩, "Lijn")]
    [metaElem [(⟨none, "name"⟩, "OVERHEIDop.geometrie"),
               (⟨none, "content"⟩, "POINT(4.88 52.37)")] [],
     metaElem [(⟨none, "name"⟩, "OVERHEIDop.geometrieLabel"),
               (⟨none, "content"⟩, "Hoofdweg")] []]

/-- Second concrete area-marking entry. -/
def gebied2 : Elem :=
  metaElem [(⟨none, "name"⟩, "OVERHEIDop.gebiedsmarkering"), (⟨none, "content"⟩, "Punt")]
    [metaElem [(⟨none, "name"⟩, "OVERHEIDop.geometrie"),
               (⟨none, "content"⟩, "POINT(1 2)")] []]

/-- A scalar entry with whitespace around its content. -/
def scalarEntry : Elem :=
  metaElem [(⟨none, "name"⟩, "DC.title"), (⟨none, "content"⟩, " Besluit X ")] []

/-- An entry with content but no name (skipped by the loop). -/
def orphanEntry : Elem :=
  metaElem [(⟨none, "content"⟩, "orphan")] []

/-- A concrete metadata document root with two area markings, one scalar
and one skipped entry. -/
def metaRoot0 : Elem :=
  .mk ⟨none, "metadata_gegevens"⟩ [] none
    (Children.ofList [gebied1, gebied2, scalarEntry, orphanEntry]) none

/-- A document body with two illustrations in nested positions. -/
def bodyTwoIll : String :=
  "<besluit><illustratie naam=\"a.png\"/><p><illustratie naam=\"b.png\"/></p></besluit>"

/-- A PDF body comfortably above the size threshold. -/
def bigPdfBytes : String := String.mk (List.replicate 50001 'x')

/-- The illustration names a raw body yields through parsing: empty when
the body is malformed, the parsed tree's names otherwise. -/
def bodyIllustratieNames (content : String) : List String :=
  match fromstring content with
  | none => []
  | some root => illustratieNames root

/-! ## Shared lemmas -/

/-- Reading a key just written returns the new value. -/
theorem pyDictGet_set_self {α β : Type} [BEq α] [LawfulBEq α]
    (d : List (α × β)) (k : α) (v : β) :
    pyDictGet (pyDictSet d k v) k = some v := by
  induction d with
  | nil => simp [pyDictGet, pyDictSet]
  | cons p rest ih =>
    by_cases h : p.1 == k
    · simp [pyDictSet, pyDictGet, h]
    · simp only [pyDictSet]
      rw [if_neg (by simp_all)]
      simpa [pyDictGet, h] using ih

/-- Writing one key leaves lookups of a different key unchanged. -/
theorem pyDictGet_set_ne {α β : Type} [BEq α] [LawfulBEq α]
    (d : List (α × β)) (k k' : α) (v : β) (h : k' ≠ k) :
    pyDictGet (pyDictSet d k v) k' = pyDictGet d k' := by
  induction d with
  | nil =>
    simp only [pyDictSet, pyDictGet, List.find?]
    have : (k == k') = false := beq_eq_false_iff_ne.mpr (Ne.symm h)
    simp [this]
  | cons p rest ih =>
    simp only [pyDictSet]
    by_cases hp : p.1 == k
    · rw [if_pos hp]
      have hpk : p.1 = k := by simpa using hp
      have hne1 : (k == k') = false := beq_eq_false_iff_ne.mpr (Ne.symm h)
      have hne2 : (p.1 == k') = false := by rw [hpk]; exact hne1
      simp [pyDictGet, List.find?, hne1, hne2]
    · rw [if_neg hp]
      by_cases hq : p.1 == k'
      · simp [pyDictGet, List.find?, hq]
      · simpa [pyDictGet, List.find?, hq] using ih

/-- The area markings a run of the loop accumulates are exactly the
reserved-name children, in source order. -/
theorem pmbLoop_snd (ms : List Elem) (md : List (String × MetaValue))
    (gs : List Gebied) :
    (pmbLoop ms md gs).2 = gs ++
      (ms.filter
        (fun m => attrGet m.attrib ⟨none, "name"⟩ == some gebiedsmarkeringKey)).map
        parseGebied := by
  induction ms generalizing md gs with
  | nil => simp [pmbLoop]
  | cons m rest ih =>
    simp only [pmbLoop]
    by_cases h : attrGet m.attrib ⟨none, "name"⟩ == some gebiedsmarkeringKey
    · rw [if_pos h, ih]
      simp [List.filter_cons, h, List.append_assoc]
    · rw [if_neg h]
      cases hn : attrGet m.attrib ⟨none, "name"⟩ with
      | none =>
        rw [ih]; simp [List.filter_cons, h]
      | some n =>
        cases hc : attrGet m.attrib ⟨none, "content"⟩ with
        | none =>
          rw [ih]; simp [List.filter_cons, h]
        | some c =>
          dsimp only
          by_cases htruthy : n ≠ "" ∧ c ≠ ""
          · rw [if_pos htruthy, ih]; simp [List.filter_cons, h]
          · rw [if_neg htruthy, ih]; simp [List.filter_cons, h]

/-- A run of the loop over children that never write scalar key `n`
leaves lookups of `n` unchanged. -/
theorem pmbLoop_preserve (n : String) (ms : List Elem)
    (md : List (String × MetaValue)) (gs : List Gebied)
    (h : ∀ m ∈ ms, ¬ setsKey m n) :
    pyDictGet (pmbLoop ms md gs).1 n = pyDictGet md n := by
  induction ms generalizing md gs with
  | nil => simp [pmbLoop]
  | cons m rest ih =>
    have hrest : ∀ m' ∈ rest, ¬ setsKey m' n := fun m' hm' => h m' (by simp [hm'])
    simp only [pmbLoop]
    by_cases hg : attrGet m.attrib ⟨none, "name"⟩ == some gebiedsmarkeringKey
    · rw [if_pos hg]; exact ih _ _ hrest
    · rw [if_neg hg]
      cases hn : attrGet m.attrib ⟨none, "name"⟩ with
      | none => exact ih _ _ hrest
      | some n' =>
        cases hc : attrGet m.attrib ⟨none, "content"⟩ with
        | none => exact ih _ _ hrest
        | some c =>
          dsimp only
          by_cases htruthy : n' ≠ "" ∧ c ≠ ""
          · rw [if_pos htruthy]
            have hne : n' ≠ n := by
              intro he
              subst he
              exact h m (by simp) ⟨c, hn, htruthy.1,
                (fun hres => hg (by simp [hn, hres])), hc, htruthy.2⟩
            rw [ih _ _ hrest, pyDictGet_set_ne _ _ _ _ (Ne.symm hne)]
          · rw [if_neg htruthy]; exact ih _ _ hrest

/-- After the loop passes a child that writes scalar key `n`, and no later
child writes it again, the dictionary holds that child's stripped content. -/
theorem pmbLoop_set (pre : List Elem) (m : Elem) (post : List Elem)
    (md : List (String × MetaValue)) (gs : List Gebied) (n c : String)
    (hm : setsKeyWith m n c) (hpost : ∀ m' ∈ post, ¬ setsKey m' n) :
    pyDictGet (pmbLoop (pre ++ m :: post) md gs).1 n =
      some (.scalar (pyStrip c)) := by
  induction pre generalizing md gs with
  | nil =>
    obtain ⟨hname, hn0, hnres, hcontent, hc0⟩ := hm
    simp only [List.nil_append, pmbLoop]
    rw [hname, hcontent]
    have hres : (some n == some gebiedsmarkeringKey) = false :=
      beq_eq_false_iff_ne.mpr (by simpa using hnres)
    rw [if_neg (by simp [hres])]
    dsimp only
    rw [if_pos ⟨hn0, hc0⟩]
    rw [pmbLoop_preserve n post _ _ hpost, pyDictGet_set_self]
  | cons p pre' ih =>
    simp only [List.cons_append, pmbLoop]
    by_cases hg : attrGet p.attrib ⟨none, "name"⟩ == some gebiedsmarkeringKey
    · rw [if_pos hg]; exact ih ..
    · rw [if_neg hg]
      cases hn : attrGet p.attrib ⟨none, "name"⟩ with
      | none => exact ih ..
      | some n' =>
        cases hc : attrGet p.attrib ⟨none, "content"⟩ with
        | none => exact ih ..
        | some c' =>
          dsimp only
          by_cases htruthy : n' ≠ "" ∧ c' ≠ ""
          · rw [if_pos htruthy]; exact ih ..
          · rw [if_neg htruthy]; exact ih ..

/-- Claim C2, counterexample.  Three refutations of the claim's
dichotomy: (i) with the throttled flag set and the counter at 4, a 200
response makes the code reset the counter to 0 (and clear the flag)
because the increment reaches `SUCCESSFUL_REQUESTS_TO_RESET = 5` — the
claim predicts 5; (ii) a 304 response is non-2xx yet the counter
increments (requests' `ok` is any status outside 400–599) instead of
resetting to 0; (iii) likewise a 700 response increments the counter. -/
theorem C2_counterexample :
    (make_rate_limited_request (fun _ => .resp ⟨200, [], ""⟩) ⟨true, 4⟩ =
      .done (some ⟨200, [], ""⟩) ⟨false, 0⟩ 1 ∧ (0 : Nat) ≠ 4 + 1) ∧
    make_rate_limited_request (fun _ => .resp ⟨304, [], ""⟩) ⟨false, 1⟩ =
      .done (some ⟨304, [], ""⟩) ⟨false, 2⟩ 1 ∧
    make_rate_limited_request (fun _ => .resp ⟨700, [], ""⟩) ⟨false, 1⟩ =
      .done (some ⟨700, [], ""⟩) ⟨false, 2⟩ 1 :=
  ⟨⟨rfl, by decide⟩, rfl, rfl⟩

/-- Claim C2, amended.  After any non-429 response the code treats as
successful (requests' `ok`: status outside 400–599, so 1xx/3xx and ≥ 600
included) the counter becomes old + 1, except that when the throttled
flag is set and old + 1 reaches the reset threshold both the flag and the
counter are cleared to 0; after a non-429 response with status 400–599
the counter resets to 0; after a run of transport exceptions the counter
is 0. -/
theorem C2_amended (st : RateLimitState) (r : Response) :
    (r.status_code ≠ 429 → respOk r = true →
      make_rate_limited_request (fun _ => .resp r) st =
        .done (some r)
          (if st.rate_limited ∧
              SUCCESSFUL_REQUESTS_TO_RESET ≤ st.successful_requests + 1
           then ⟨false, 0⟩ else ⟨st.rate_limited, st.successful_requests + 1⟩) 1)
    ∧ (400 ≤ r.status_code → r.status_code ≤ 599 → r.status_code ≠ 429 →
      make_rate_limited_request (fun _ => .resp r) st =
        .done (some r) ⟨st.rate_limited, 0⟩ 1)
    ∧ make_rate_limited_request (fun _ => .exn) st =
        .done none ⟨st.rate_limited, 0⟩ (MAX_RETRIES + 1) := by
  refine ⟨?_, ?_, rfl⟩
  · intro h1 h2
    have h429 : (r.status_code == 429) = false := beq_eq_false_iff_ne.mpr h1
    unfold make_rate_limited_request fetchAux
    simp [h429, h2]
    split <;> rfl
  · intro h1 h2 h3
    have h429 : (r.status_code == 429) = false := beq_eq_false_iff_ne.mpr h3
    have hok : respOk r = false := by
      simp only [respOk, Bool.not_eq_false', Bool.and_eq_true, decide_eq_true_eq]
      omega
    unfold make_rate_limited_request fetchAux
    simp [h429, hok]

/-- Claim C2, witness for the amended theorem: a 301 (ok, non-2xx) with
the flag clear increments 1 → 2; a 500 resets 3 → 0. -/
theorem C2_witness :
    make_rate_limited_request (fun _ => .resp ⟨301, [], ""⟩) ⟨false, 1⟩ =
      .done (some ⟨301, [], ""⟩) ⟨false, 2⟩ 1 ∧
    make_rate_limited_request (fun _ => .resp ⟨500, [], ""⟩) ⟨true, 3⟩ =
      .done (some ⟨500, [], ""⟩) ⟨true, 0⟩ 1 := by
  constructor
  · have h := (C2_amended ⟨false, 1⟩ ⟨301, [], ""⟩).1 (by decide) (by decide)
    simpa using h
  · exact (C2_amended ⟨true, 3⟩ ⟨500, [], ""⟩).2.1 (by decide) (by decide) (by decide)

/-! ## Claim C3 -/

/-- Claim C6, confirmed.  For a document whose metadata holds a truthy
external-attachment reference with an extractable `exb-` code: if the body
parses and yields exactly two illustration names, the locating step yields
exactly three URLs — the external PDF's first, then the two embedded ones
in document order; if the body is malformed XML, it yields only the
external PDF's URL (zero embedded references). -/
theorem C6_locate_roundtrip (metadata : List (String × MetaValue))
    (content s exb n1 n2 : String)
    (h1 : pyDictGet metadata "OVERHEIDop.externeBijlage" = some (.scalar s))
    (h2 : (s == "") = false)
    (h3 : findExb s = some exb) :
    ((fromstring content).isSome = true →
      bodyIllustratieNames content = [n1, n2] →
      locate_images metadata content =
        [pdf_attachment_url exb, embedded_image_url n1, embedded_image_url n2])
    ∧ (fromstring content = none →
      locate_images metadata content = [pdf_attachment_url exb]) := by
  constructor
  · intro hsome hnames
    cases hfs : fromstring content with
    | none => rw [hfs] at hsome; simp at hsome
    | some root =>
      simp only [bodyIllustratieNames, hfs] at hnames
      simp [locate_images, h1, h2, h3, get_embedded_image_urls_from_xml, hfs,
            hnames, get_pdf_attachment_image_urls]
  · intro hnone
    simp [locate_images, h1, h2, h3, get_embedded_image_urls_from_xml, hnone,
          get_pdf_attachment_image_urls]

/-- Claim C6, witness: one concrete metadata map with an `exb-` reference
and a body with two nested illustrations; and the same metadata against a
malformed body. -/
theorem C6_witness :
    locate_images [("OVERHEIDop.externeBijlage", .scalar "exb-2024-1")] bodyTwoIll =
      [pdf_attachment_url "exb-2024-1", embedded_image_url "a.png",
       embedded_image_url "b.png"] ∧
    locate_images [("OVERHEIDop.externeBijlage", .scalar "exb-2024-1")] "<<bad" =
      [pdf_attachment_url "exb-2024-1"] :=
  ⟨(C6_locate_roundtrip [("OVERHEIDop.externeBijlage", .scalar "exb-2024-1")]
      bodyTwoIll "exb-2024-1" "exb-2024-1" "a.png" "b.png" rfl rfl rfl).1 rfl rfl,
   (C6_locate_roundtrip [("OVERHEIDop.externeBijlage", .scalar "exb-2024-1")]
      "<<bad" "exb-2024-1" "exb-2024-1" "a.png" "b.png" rfl rfl rfl).2 rfl⟩

/-! ## Claim C7 -/

/-- Claim C7, confirmed.  When the PDF downloads (HTTP 200, above the
size threshold), renders to at least one page, and the classification
verdict on the first page is negative, `download_en_convert_pdf_bijlage`
writes no file and returns the empty string; running it twice in sequence
with the same inputs leaves the filesystem unchanged and returns empty
both times. -/
theorem C7_negative_verdict_idempotent
    (fetch : HttpReq → Option Response)
    (convert : String → Nat → List String)
    (classify : String → Bool) (pageBytes : String → String)
    (fs : List String) (exb bid : String) (r : Response)
    (page : String) (rest : List String)
    (h1 : fetch ⟨pdf_attachment_url exb, []⟩ = some r)
    (h2 : r.status_code = 200)
    (h3 : MIN_PDF_SIZE_BYTES < r.content.length)
    (h4 : convert r.content PDF_CONVERSION_DPI = page :: rest)
    (h5 : classify (pageBytes page) = false) :
    download_en_convert_pdf_bijlage fetch convert classify pageBytes fs exb bid =
      ("", fs, [⟨pdf_attachment_url exb, []⟩]) ∧
    download_en_convert_pdf_bijlage fetch convert classify pageBytes
      (download_en_convert_pdf_bijlage fetch convert classify pageBytes fs exb bid).2.1
      exb bid = ("", fs, [⟨pdf_attachment_url exb, []⟩]) := by
  have hfirst :
      download_en_convert_pdf_bijlage fetch convert classify pageBytes fs exb bid =
        ("", fs, [⟨pdf_attachment_url exb, []⟩]) := by
    unfold download_en_convert_pdf_bijlage
    dsimp only
    rw [h1]
    dsimp only
    rw [if_pos ⟨by simp [h2], h3⟩, h4]
    dsimp only
    simp [h5]
  exact ⟨hfirst, by rw [hfirst]; exact hfirst⟩

/-- Claim C7, witness: a concrete 50001-byte PDF body, a renderer that
produces one page, and an always-negative classifier. -/
theorem C7_witness :
    download_en_convert_pdf_bijlage (fun _ => some ⟨200, [], bigPdfBytes⟩)
      (fun _ _ => ["page1"]) (fun _ => false) (fun b => b) [] "exb-1" "gmb-1" =
      ("", [], [⟨pdf_attachment_url "exb-1", []⟩]) := by
  have h := (C7_negative_verdict_idempotent (fun _ => some ⟨200, [], bigPdfBytes⟩)
    (fun _ _ => ["page1"]) (fun _ => false) (fun b => b) [] "exb-1" "gmb-1"
    ⟨200, [], bigPdfBytes⟩ "page1" [] rfl rfl
    (by
      have hlen : (List.replicate 50001 'x').length = 50001 :=
        List.length_replicate 50001 'x' 
      show MIN_PDF_SIZE_BYTES < (List.replicate 50001 'x').length
      rw [hlen]
      norm_num [MIN_PDF_SIZE_BYTES]) rfl rfl).1
  exact h

/-! ## Claim C9 -/

/-- Claim C9, confirmed.  For any metadata document: when exactly two
children carry the reserved area-marking name, the parsed map's reserved
key holds exactly their two area markings in source order, each built by
`parseGebied` (type from the entry's own content, geometry/label from its
reserved-named nested children); any child with a truthy non-reserved
name and truthy content — not overwritten later — yields a scalar entry
with stripped content; a key no child writes (name or content missing or
empty) is absent. -/
theorem C9_parse_metadata (root : Elem) :
    (∀ g1 g2, gebiedChildren root = [g1, g2] →
      pyDictGet (parse_metadata_block root) gebiedsmarkeringKey =
        some (.gebieden [parseGebied g1, parseGebied g2]))
    ∧ (∀ m pre post n c,
        directChildren root ⟨none, "metadata"⟩ = pre ++ m :: post →
        setsKeyWith m n c → (∀ m' ∈ post, ¬ setsKey m' n) →
        pyDictGet (parse_metadata_block root) n = some (.scalar (pyStrip c)))
    ∧ (∀ n, n ≠ gebiedsmarkeringKey →
        (∀ m ∈ directChildren root ⟨none, "metadata"⟩, ¬ setsKey m n) →
        pyDictGet (parse_metadata_block root) n = none) := by
  refine ⟨?_, ?_, ?_⟩
  · intro g1 g2 hg
    unfold parse_metadata_block
    have hsnd := pmbLoop_snd (directChildren root ⟨none, "metadata"⟩) [] []
    have hfilter : (directChildren root ⟨none, "metadata"⟩).filter
        (fun m => attrGet m.attrib ⟨none, "name"⟩ == some gebiedsmarkeringKey) =
        [g1, g2] := hg
    rw [hfilter] at hsnd
    rcases hp : pmbLoop (directChildren root ⟨none, "metadata"⟩) [] [] with ⟨md, gs⟩
    rw [hp] at hsnd
    have hgs : gs = [parseGebied g1, parseGebied g2] := by simpa using hsnd
    dsimp only
    subst hgs
    simp [pyDictGet_set_self]
  · intro m pre post n c hsplit hm hpost
    have hnres : n ≠ gebiedsmarkeringKey := hm.2.2.1
    have hset := pmbLoop_set pre m post [] [] n c hm hpost
    unfold parse_metadata_block
    rcases hp : pmbLoop (directChildren root ⟨none, "metadata"⟩) [] [] with ⟨md, gs⟩
    rw [hsplit] at hp
    rw [hp] at hset
    simp only at hset
    dsimp only
    split
    · exact hset
    · rw [pyDictGet_set_ne _ _ _ _ hnres]
      exact hset
  · intro n hnres hnone
    have hpres := pmbLoop_preserve n (directChildren root ⟨none, "metadata"⟩) [] [] hnone
    unfold parse_metadata_block
    rcases hp : pmbLoop (directChildren root ⟨none, "metadata"⟩) [] [] with ⟨md, gs⟩
    rw [hp] at hpres
    simp only at hpres
    dsimp only
    split
    · rw [hpres]; simp [pyDictGet]
    · rw [pyDictGet_set_ne _ _ _ _ hnres, hpres]
      simp [pyDictGet]

/-- Claim C9, witness: the concrete metadata document with two area
markings, one scalar entry with padded content, and one nameless entry. -/
theorem C9_witness :
    pyDictGet (parse_metadata_block metaRoot0) gebiedsmarkeringKey =
      some (.gebieden [parseGebied gebied1, parseGebied gebied2]) ∧
    pyDictGet (parse_metadata_block metaRoot0) "DC.title" =
      some (.scalar "Besluit X") ∧
    pyDictGet (parse_metadata_block metaRoot0) "missing" = none := by
  refine ⟨(C9_parse_metadata metaRoot0).1 gebied1 gebied2 rfl, ?_, ?_⟩
  · have h := (C9_parse_metadata metaRoot0).2.1 scalarEntry [gebied1, gebied2]
      [orphanEntry] "DC.title" " Besluit X " rfl
      ⟨rfl, by decide, by decide, rfl, by decide⟩
      (by
        intro m' hm'
        simp only [List.mem_singleton] at hm'
        subst hm'
        rintro ⟨c, hname, -, -, -, -⟩
        exact absurd hname (by decide))
    exact h
  · refine (C9_parse_metadata metaRoot0).2.2 "missing" (by decide) ?_
    intro m hm
    have hlist : directChildren metaRoot0 ⟨none, "metadata"⟩ =
        [gebied1, gebied2, scalarEntry, orphanEntry] := rfl
    rw [hlist] at hm
    rintro ⟨c, hname, -, -, -, -⟩
    simp only [List.mem_cons, List.not_mem_nil, or_false] at hm
    rcases hm with rfl | rfl | rfl | rfl
    · exact absurd hname (by decide)
    · exact absurd hname (by decide)
    · exact absurd hname (by decide)
    · exact absurd hname (by decide)

/-! ## Claim C1 -/

/-- Claim C1, counterexample.  With a record whose content fetch succeeds
(benign body) and whose metadata document is malformed XML, the whole
date's run aborts with an uncaught `ParseError` instead of degrading that
record's metadata to an empty map: `ET.fromstring(meta_resp.content)` at
source line 224 is not inside any `try`. -/
theorem C1_counterexample :
    (get_besluiten_for_date fetchMalformedMeta "2024-01-01").1 =
      .error "ET.ParseError while parsing metadata" := rfl

/-- Claim C1, amended.  For a record whose content fetch succeeds and
passes the keyword filter and whose metadata URL is truthy: a metadata
*fetch* failure (the `None` sentinel, or a response with status 400–599 —
requests' not-ok) degrades to an empty metadata map without dropping the
record, but when the metadata response is ok (status outside 400–599) and
its document is malformed XML, a `ParseError` propagates and aborts the
whole date's run. -/
theorem C1_amended (fetch : HttpReq → Option Response) (record : Elem)
    (curl murl : String) (xr : Response)
    (h1 : truthyUrl (itemUrlsOf record) "xml" = some curl)
    (h2 : fetch ⟨curl, []⟩ = some xr)
    (h3 : respOk xr = true)
    (h4 : (EXCLUDE_KEYWORDS.any fun k =>
      charsContain k.data (pyLower xr.content).data) = false)
    (h5 : truthyUrl (itemUrlsOf record) "metadata" = some murl) :
    (fetch ⟨murl, []⟩ = none →
      processRecord fetch record =
        .ok (some (assembleRecord curl xr.content []),
             [⟨curl, []⟩, ⟨murl, []⟩]))
    ∧ (∀ mr, fetch ⟨murl, []⟩ = some mr → respOk mr = false →
      processRecord fetch record =
        .ok (some (assembleRecord curl xr.content []),
             [⟨curl, []⟩, ⟨murl, []⟩]))
    ∧ (∀ mr, fetch ⟨murl, []⟩ = some mr → respOk mr = true →
      fromstring mr.content = none →
      processRecord fetch record = .error "ET.ParseError while parsing metadata") := by
  refine ⟨?_, ?_, ?_⟩
  · intro hm
    unfold processRecord
    dsimp only
    rw [h1]
    dsimp only
    rw [h2]
    dsimp only
    rw [if_pos h3, if_neg (by simp [h4]), h5]
    dsimp only
    rw [hm]
  · intro mr hm hmok
    unfold processRecord
    dsimp only
    rw [h1]
    dsimp only
    rw [h2]
    dsimp only
    rw [if_pos h3, if_neg (by simp [h4]), h5]
    dsimp only
    rw [hm]
    dsimp only
    rw [if_neg (by simp [hmok])]
  · intro mr hm hmok hparse
    unfold processRecord
    dsimp only
    rw [h1]
    dsimp only
    rw [h2]
    dsimp only
    rw [if_pos h3, if_neg (by simp [h4]), h5]
    dsimp only
    rw [hm]
    dsimp only
    rw [if_pos hmok, hparse]

/-- Claim C1, witness: the concrete record with both URLs, once against a
network where the metadata fetch fails (record kept, metadata empty) and
once against one serving malformed metadata (run raises). -/
theorem C1_witness :
    processRecord fetchMetaDown recordBoth =
      .ok (some (assembleRecord "http://x/doc1.xml" "<besluit>tekst</besluit>" []),
           [⟨"http://x/doc1.xml", []⟩, ⟨"http://x/meta1.xml", []⟩]) ∧
    processRecord fetchMalformedMeta recordBoth =
      .error "ET.ParseError while parsing metadata" :=
  ⟨(C1_amended fetchMetaDown recordBoth "http://x/doc1.xml" "http://x/meta1.xml"
      (okResp "<besluit>tekst</besluit>") rfl rfl rfl rfl rfl).1 rfl,
   (C1_amended fetchMalformedMeta recordBoth "http://x/doc1.xml" "http://x/meta1.xml"
      (okResp "<besluit>tekst</besluit>") rfl rfl rfl rfl rfl).2.2
      (okResp "<<malformed") rfl rfl rfl⟩

/-! ## Claim C4 -/

/-- Claim C4, counterexample.  Raw content
`<a>parkeer&#112;laats</a>` contains no exclusion keyword as a byte
substring (the `p` is a character reference), so the keyword filter keeps
the record; but the extracted text is `parkeerplaats`, a configured
keyword, so the returned record's `text` does contain an exclusion
keyword case-insensitively. -/
theorem C4_counterexample :
    (get_besluiten_for_date fetchEntitySmuggled "2024-01-01").1 =
      .ok [⟨"doc1", "parkeerplaats", [], []⟩] ∧
    charsContain "parkeerplaats".data (pyLower "parkeerplaats").data = true ∧
    "parkeerplaats" ∈ EXCLUDE_KEYWORDS :=
  ⟨rfl, rfl, by decide⟩

/-- Claim C4, amended.  Every record the loop assembles has raw fetched
content that contains, case-insensitively, none of the configured
exclusion keywords (records whose raw content matches any keyword are
dropped before assembly); the *extracted text* may still contain a
keyword when the raw bytes encode it via XML character references. -/
theorem C4_amended (fetch : HttpReq → Option Response) (record : Elem)
    (rec : DocRecord) (log : List HttpReq) (curl : String) (xr : Response)
    (h1 : truthyUrl (itemUrlsOf record) "xml" = some curl)
    (h2 : fetch ⟨curl, []⟩ = some xr)
    (h : processRecord fetch record = .ok (some rec, log)) :
    (EXCLUDE_KEYWORDS.any fun k =>
      charsContain k.data (pyLower xr.content).data) = false := by
  unfold processRecord at h
  dsimp only at h
  rw [h1] at h
  dsimp only at h
  rw [h2] at h
  dsimp only at h
  by_cases h3 : respOk xr = true
  · rw [if_pos h3] at h
    by_cases h4 : (EXCLUDE_KEYWORDS.any fun k =>
        charsContain k.data (pyLower xr.content).data) = true
    · rw [if_pos h4] at h; simp at h
    · exact Bool.eq_false_iff.mpr h4
  · rw [if_neg h3] at h; simp at h

/-- Claim C4, witness for the amended theorem: the record kept by the
pipeline in the metadata-fetch-failure scenario has keyword-free raw
content. -/
theorem C4_witness :
    (EXCLUDE_KEYWORDS.any fun k =>
      charsContain k.data (pyLower "<besluit>tekst</besluit>").data) = false :=
  C4_amended fetchMetaDown recordBoth
    (assembleRecord "http://x/doc1.xml" "<besluit>tekst</besluit>" [])
    [⟨"http://x/doc1.xml", []⟩, ⟨"http://x/meta1.xml", []⟩]
    "http://x/doc1.xml" (okResp "<besluit>tekst</besluit>") rfl rfl rfl

/-! ## Claim C5 -/

/-- Claim C5, counterexample.  A record whose fetched content is not XML
at all is still included in the output, with degenerate fields: empty
extracted text, empty metadata, no images (`extract_plain_text_from_xml`
catches the `ParseError` and returns `""`, and assembly proceeds). -/
theorem C5_counterexample :
    (get_besluiten_for_date fetchPlainContent "2024-01-01").1 =
      .ok [⟨"doc1", "", [], []⟩] := rfl

/-- Claim C5, amended.  A record whose content fetch succeeds, passes the
keyword filter, has no truthy metadata URL, and whose body fails XML
parsing IS included in the output — with empty text, empty metadata and
an empty image list — rather than being dropped. -/
theorem C5_amended (fetch : HttpReq → Option Response) (record : Elem)
    (curl : String) (xr : Response)
    (h1 : truthyUrl (itemUrlsOf record) "xml" = some curl)
    (h2 : fetch ⟨curl, []⟩ = some xr)
    (h3 : respOk xr = true)
    (h4 : (EXCLUDE_KEYWORDS.any fun k =>
      charsContain k.data (pyLower xr.content).data) = false)
    (h5 : truthyUrl (itemUrlsOf record) "metadata" = none)
    (h6 : fromstring xr.content = none) :
    processRecord fetch record =
      .ok (some ⟨pyReplace (lastSegment curl) ".xml" "", "", [], []⟩,
           [⟨curl, []⟩]) := by
  unfold processRecord
  dsimp only
  rw [h1]
  dsimp only
  rw [h2]
  dsimp only
  rw [if_pos h3, if_neg (by simp [h4]), h5]
  dsimp only
  simp [assembleRecord, extract_plain_text_from_xml, h6, locate_images,
        get_embedded_image_urls_from_xml, pyDictGet]

/-- Claim C5, witness: the concrete non-XML-content scenario. -/
theorem C5_witness :
    processRecord fetchPlainContent recordContentOnly =
      .ok (some ⟨"doc1", "", [], []⟩, [⟨"http://x/doc1.xml", []⟩]) :=
  C5_amended fetchPlainContent recordContentOnly "http://x/doc1.xml"
    (okResp "plain, not xml") rfl rfl rfl rfl rfl rfl

/-! ## Claim C10 -/

/-- Claim C10, counterexample.  The orchestrator itself performs no date
validation: called with `not-a-date` it does not fail with an
input-validation error (it returns the normal empty result) and it DOES
issue the search request, with the bogus date embedded in the query. -/
theorem C10_counterexample :
    (get_besluiten_for_date (fun _ => none) "not-a-date").1 = .ok [] ∧
    (get_besluiten_for_date (fun _ => none) "not-a-date").2 =
      [searchReq "not-a-date"] :=
  ⟨rfl, rfl⟩

/-- Claim C10, amended.  Date-shape validation lives in the HTTP endpoint
wrapper (`get_besluiten_by_date` in api.py), not in the orchestrator: a
path segment failing the `\d{4}-\d{2}-\d{2}` regex is rejected by FastAPI
before the handler runs, and a regex-shaped but invalid calendar date is
rejected by `strptime` with HTTP 400 — in both cases without retrying and
without issuing any request. -/
theorem C10_amended (fetch : HttpReq → Option Response)
    (convert : String → Nat → List String) (classify : String → Bool)
    (pageBytes : String → String) (fs : List String) (s : String) :
    (dateRegexMatch s = false →
      get_besluiten_by_date fetch convert classify pageBytes fs s =
        (.validationError, fs, []))
    ∧ (dateRegexMatch s = true → strptimeValid s = false →
      get_besluiten_by_date fetch convert classify pageBytes fs s =
        (.badRequest, fs, [])) := by
  constructor
  · intro h
    simp [get_besluiten_by_date, h]
  · intro h1 h2
    simp [get_besluiten_by_date, h1, h2]

/-- Claim C10, witness: a non-date string is rejected by the path regex
and an impossible calendar date by `strptime`, both issuing no request. -/
theorem C10_witness :
    get_besluiten_by_date (fun _ => none) (fun _ _ => []) (fun _ => false)
      (fun b => b) [] "banana" = (.validationError, [], []) ∧
    get_besluiten_by_date (fun _ => none) (fun _ _ => []) (fun _ => false)
      (fun b => b) [] "2024-02-30" = (.badRequest, [], []) :=
  ⟨(C10_amended (fun _ => none) (fun _ _ => []) (fun _ => false)
      (fun b => b) [] "banana").1 rfl,
   (C10_amended (fun _ => none) (fun _ _ => []) (fun _ => false)
      (fun b => b) [] "2024-02-30").2 rfl rfl⟩
